import Mathlib

/-!
Verification development for the rust-bio-tools consensus-read tool.

Part 1 embeds the dispatch function `call_consensus_reads_from_paths` and the
parameter formatter `format_pipeline_params` from
src/fastq/call_consensus_reads/mod.rs.  File-system effects (opening input
files, creating output files) and the inner pipeline run are abstracted by an
environment oracle recording which of those operations succeed; the dispatch
logic itself (suffix tests, arm selection, error wrapping, panics) is
transliterated arm by arm.
-/

namespace RBT

/-- Rust `str::ends_with`, modelled as a suffix test on the character data
of the path string. -/
def ends_with (s suffix : String) : Bool :=
  suffix.data.isSuffixOf s.data

/-- The error variants of the crate's `errors` module that are reachable from
`call_consensus_reads_from_paths`.  `pipelineError` keeps the formatted
parameter dump together with the wrapped inner error, mirroring snafu's
`.context(errors::PipelineError { params: ... })`. -/
inductive RbtError where
  | readerError (filename : String)
  | writerError (filename : String)
  | pipelineError (params : String) (source : String)
  | configError (msg : String)
deriving DecidableEq

/-- Result of running a Rust function: an `Ok` value, a returned `Err`, or a
panic (Rust panics are not values of the `Result` type, so they are a third
alternative). -/
inductive Outcome (ε α : Type) where
  | ok (a : α)
  | err (e : ε)
  | panicked (msg : String)
deriving DecidableEq

/-- Which modes a successful dispatch selected: for each stream, `true` means
the gzip codec wraps it.  `writeGz3` is present exactly in overlap mode. -/
structure RunInfo where
  readGz1 : Bool
  readGz2 : Bool
  writeGz1 : Bool
  writeGz2 : Bool
  writeGz3 : Option Bool
  overlap : Bool
deriving DecidableEq

/-- Environment oracle for one run: which paths can be opened for reading,
which can be created for writing, and whether the inner
`call_consensus_reads()` run fails (and with which inner error message). -/
structure FsEnv where
  openOk : String → Bool
  createOk : String → Bool
  pipelineErr : Option String

/-- The panic message of the `_ => panic!(...)` arms (mod.rs lines 315-319 and
518-522); the Rust string-literal line continuations collapse to single
spaces. -/
def invalid_combination_msg : String :=
  "Invalid combination of files. Each pair of files (input and output) need to be both gzipped or both not zipped."

/-- Message of the panic raised by `Option::unwrap()` on `None`
(`insert_size.unwrap()` / `std_dev.unwrap()`, mod.rs lines 354-355 etc.). -/
def unwrap_none_msg : String :=
  "called Option::unwrap() on a None value"

/-- Transliteration of `format_pipeline_params` (mod.rs lines 92-128).  The
Rust `format!` interpolations become string concatenation; concatenation is
split at the interpolation points, which leaves the assembled string
unchanged. -/
def format_pipeline_params (umi_len seq_dist umi_dist : Nat)
    (reverse_umi verbose_read_names : Bool)
    (insert_size std_dev : Option Nat) : String :=
  let umi_pos :=
    if reverse_umi then
      "UMIs are the first " ++ toString umi_len ++ " characters of the reverse read."
    else
      "UMIs are the first " ++ toString umi_len ++ " characters of the forward read."
  let verbose_reads :=
    if verbose_read_names then "Read names are written in verbose format."
    else "Read names are written in short format."
  let mode :=
    match insert_size, std_dev with
    | some is, some sd =>
        "Run in " ++ ("overlap mode with insert size " ++ toString is ++
          " and std deviation " ++ toString sd) ++ "."
    | none, none => "Run in " ++ "normal mode without overlaps" ++ "."
    | _, _ => "Invalid mode."
  "Pipeline did not finish correctly. It was run with " ++
    ("sequence distance " ++ toString seq_dist) ++ " and " ++
    ("UMI distance " ++ toString umi_dist) ++ ".\n" ++
    umi_pos ++ "\n" ++ verbose_reads ++ "\n" ++ mode

/-- The configuration parameters threaded through the dispatch. -/
structure Params where
  umi_len : Nat
  seq_dist : Nat
  umi_dist : Nat
  reverse_umi : Bool
  verbose_read_names : Bool
  insert_size : Option Nat
  std_dev : Option Nat

/-- The formatted parameter dump for a parameter record. -/
def Params.dump (p : Params) : String :=
  format_pipeline_params p.umi_len p.seq_dist p.umi_dist p.reverse_umi
    p.verbose_read_names p.insert_size p.std_dev

/-- The trailing `.call_consensus_reads().context(errors::PipelineError {...})`
step shared by every arm: a pipeline failure is wrapped as `PipelineError`
carrying the formatted parameter dump. -/
def run_pipeline (env : FsEnv) (params : String) (info : RunInfo) :
    Outcome RbtError RunInfo :=
  match env.pipelineErr with
  | none => .ok info
  | some e => .err (.pipelineError params e)

/-- One `CallNonOverlappingConsensusRead::new(...)` arm.  Readers are built
first (open failures wrapped via `errors::ReaderError` with the input
filename), then the two writers; the error constructor used for a writer
failure is `out_err`, which is `writerError` only in the all-plain arm and
`readerError` in the other three arms, exactly as in the source. -/
def non_overlap_arm (env : FsEnv) (fq1 fq2 fq1_out fq2_out : String)
    (gz_in gz_out : Bool) (out_err : String → RbtError) (params : String) :
    Outcome RbtError RunInfo :=
  if env.openOk fq1 then
    if env.openOk fq2 then
      if env.createOk fq1_out then
        if env.createOk fq2_out then
          run_pipeline env params ⟨gz_in, gz_in, gz_out, gz_out, none, false⟩
        else .err (out_err fq2_out)
      else .err (out_err fq1_out)
    else .err (.readerError fq2)
  else .err (.readerError fq1)

/-- One `CallOverlappingConsensusRead::new(...)` arm.  In every overlap arm
the source wraps writer-creation failures with `errors::ReaderError` (mod.rs
lines 342-350, 388-396, 424-441, 479-496).  After the writers are built the
argument list evaluates `insert_size.unwrap()` and `std_dev.unwrap()`, which
panic when the option is `None`. -/
def overlap_arm (env : FsEnv) (fq1 fq2 fq1_out fq2_out fq3_out : String)
    (gz_in gz_out : Bool) (insert_size std_dev : Option Nat) (params : String) :
    Outcome RbtError RunInfo :=
  if env.openOk fq1 then
    if env.openOk fq2 then
      if env.createOk fq1_out then
        if env.createOk fq2_out then
          if env.createOk fq3_out then
            match insert_size, std_dev with
            | some _, some _ =>
                run_pipeline env params ⟨gz_in, gz_in, gz_out, gz_out, some gz_out, true⟩
            | _, _ => .panicked unwrap_none_msg
          else .err (.readerError fq3_out)
        else .err (.readerError fq2_out)
      else .err (.readerError fq1_out)
    else .err (.readerError fq2)
  else .err (.readerError fq1)

/-- Transliteration of `call_consensus_reads_from_paths` (mod.rs lines
135-526): dispatch on `fq3_out` being absent (non-overlap) or present
(overlap), then on the `.gz` suffixes of the paths; the four matched
combinations select plain or gzip codecs, every other combination panics. -/
def call_consensus_reads_from_paths (env : FsEnv)
    (fq1 fq2 fq1_out fq2_out : String) (fq3_out : Option String)
    (p : Params) : Outcome RbtError RunInfo :=
  match fq3_out with
  | none =>
    match ends_with fq1 ".gz", ends_with fq2 ".gz",
        ends_with fq1_out ".gz", ends_with fq2_out ".gz" with
    | false, false, false, false =>
        non_overlap_arm env fq1 fq2 fq1_out fq2_out false false RbtError.writerError p.dump
    | true, true, false, false =>
        non_overlap_arm env fq1 fq2 fq1_out fq2_out true false RbtError.readerError p.dump
    | false, false, true, true =>
        non_overlap_arm env fq1 fq2 fq1_out fq2_out false true RbtError.readerError p.dump
    | true, true, true, true =>
        non_overlap_arm env fq1 fq2 fq1_out fq2_out true true RbtError.readerError p.dump
    | _, _, _, _ => .panicked invalid_combination_msg
  | some fq3 =>
    match ends_with fq1 ".gz", ends_with fq2 ".gz", ends_with fq1_out ".gz",
        ends_with fq2_out ".gz", ends_with fq3 ".gz" with
    | false, false, false, false, false =>
        overlap_arm env fq1 fq2 fq1_out fq2_out fq3 false false p.insert_size p.std_dev p.dump
    | true, true, false, false, false =>
        overlap_arm env fq1 fq2 fq1_out fq2_out fq3 true false p.insert_size p.std_dev p.dump
    | false, false, true, true, true =>
        overlap_arm env fq1 fq2 fq1_out fq2_out fq3 false true p.insert_size p.std_dev p.dump
    | true, true, true, true, true =>
        overlap_arm env fq1 fq2 fq1_out fq2_out fq3 true true p.insert_size p.std_dev p.dump
    | _, _, _, _, _ => .panicked invalid_combination_msg

/-- An environment in which every open and create succeeds and the pipeline
run itself succeeds. -/
def env_all_ok : FsEnv :=
  { openOk := fun _ => true, createOk := fun _ => true, pipelineErr := none }

/-- A concrete default parameter record (non-overlap mode). -/
def default_params : Params :=
  { umi_len := 8, seq_dist := 2, umi_dist := 1, reverse_umi := false,
    verbose_read_names := false, insert_size := none, std_dev := none }

/-- A successful non-overlap arm run selected exactly the codec modes the arm
was instantiated with. -/
theorem non_overlap_arm_ok_info {env : FsEnv} {fq1 fq2 fq1_out fq2_out : String}
    {gz_in gz_out : Bool} {out_err : String → RbtError} {params : String}
    {info : RunInfo}
    (h : non_overlap_arm env fq1 fq2 fq1_out fq2_out gz_in gz_out out_err params
      = .ok info) :
    info = ⟨gz_in, gz_in, gz_out, gz_out, none, false⟩ := by
  unfold non_overlap_arm run_pipeline at h
  split_ifs at h
  all_goals try split at h
  all_goals simp_all

/-- A successful overlap arm run selected exactly the codec modes the arm was
instantiated with, and reported a merged-stream codec. -/
theorem overlap_arm_ok_info {env : FsEnv} {fq1 fq2 fq1_out fq2_out fq3_out : String}
    {gz_in gz_out : Bool} {insert_size std_dev : Option Nat} {params : String}
    {info : RunInfo}
    (h : overlap_arm env fq1 fq2 fq1_out fq2_out fq3_out gz_in gz_out
      insert_size std_dev params = .ok info) :
    info = ⟨gz_in, gz_in, gz_out, gz_out, some gz_out, true⟩ := by
  unfold overlap_arm run_pipeline at h
  split_ifs at h
  all_goals try split at h
  all_goals try split at h
  all_goals simp_all

/-- C7: for every input path the dispatch reads through a gzip decoder if and
only if the path ends with `.gz`, and for every output path it writes through
a gzip encoder if and only if the path ends with `.gz` (on every run that
proceeds, i.e. dispatches into one of the matched arms). -/
theorem gz_codec_matches_path_suffix (env : FsEnv)
    (fq1 fq2 fq1_out fq2_out : String) (fq3_out : Option String) (p : Params)
    (info : RunInfo)
    (h : call_consensus_reads_from_paths env fq1 fq2 fq1_out fq2_out fq3_out p
      = .ok info) :
    info.readGz1 = ends_with fq1 ".gz" ∧ info.readGz2 = ends_with fq2 ".gz" ∧
    info.writeGz1 = ends_with fq1_out ".gz" ∧
    info.writeGz2 = ends_with fq2_out ".gz" ∧
    info.writeGz3 = fq3_out.map (fun f => ends_with f ".gz") := by
  cases fq3_out with
  | none =>
    simp only [call_consensus_reads_from_paths] at h
    split at h
    all_goals first
      | exact absurd h (by simp)
      | (obtain rfl := non_overlap_arm_ok_info h; simp_all)
  | some fq3 =>
    simp only [call_consensus_reads_from_paths] at h
    split at h
    all_goals first
      | exact absurd h (by simp)
      | (obtain rfl := overlap_arm_ok_info h; simp_all)

/-- Closed witness for the codec-suffix theorem at a concrete all-plain
configuration. -/
theorem gz_codec_matches_path_suffix_witness :
    (RunInfo.mk false false false false none false).readGz1
        = ends_with "reads_1.fastq" ".gz" ∧
    (RunInfo.mk false false false false none false).readGz2
        = ends_with "reads_2.fastq" ".gz" ∧
    (RunInfo.mk false false false false none false).writeGz1
        = ends_with "out_1.fastq" ".gz" ∧
    (RunInfo.mk false false false false none false).writeGz2
        = ends_with "out_2.fastq" ".gz" ∧
    (RunInfo.mk false false false false none false).writeGz3
        = Option.map (fun f => ends_with f ".gz") none :=
  gz_codec_matches_path_suffix env_all_ok "reads_1.fastq" "reads_2.fastq"
    "out_1.fastq" "out_2.fastq" none default_params
    (RunInfo.mk false false false false none false) rfl

/-- C1 (code behaviour): on a well-formed configuration whose input pair mixes
gzip and plain, the dispatch panics with the "Invalid combination of files"
message instead of returning a `ConfigError`. -/
theorem mixed_compression_panics :
    call_consensus_reads_from_paths env_all_ok "reads_1.fastq.gz" "reads_2.fastq"
      "out_1.fastq" "out_2.fastq" none default_params
      = .panicked invalid_combination_msg := rfl

/-- An environment in which creating the first output file fails and
everything else succeeds. -/
def env_no_out1 : FsEnv :=
  { openOk := fun _ => true,
    createOk := fun f => !(f == "out_1.fastq"),
    pipelineErr := none }

/-- C6 (code behaviour): with gzipped inputs and plain outputs, a failure to
create the first output file is reported as `ReaderError` carrying the output
filename, while the identical failure in the all-plain arm is reported as
`WriterError` — the error kind depends on the arm, not on the failing
operation. -/
theorem writer_failure_error_kind :
    call_consensus_reads_from_paths env_no_out1 "reads_1.fastq.gz"
      "reads_2.fastq.gz" "out_1.fastq" "out_2.fastq" none default_params
      = .err (.readerError "out_1.fastq") ∧
    call_consensus_reads_from_paths env_no_out1 "reads_1.fastq"
      "reads_2.fastq" "out_1.fastq" "out_2.fastq" none default_params
      = .err (.writerError "out_1.fastq") :=
  ⟨rfl, rfl⟩

/-- Substring containment: `sub` occurs contiguously inside `s`. -/
def str_contains (s sub : String) : Prop :=
  ∃ pre post, s = pre ++ sub ++ post

theorem str_contains_self (s : String) : str_contains s s :=
  ⟨"", "", by simp⟩

theorem str_contains_append_left {s sub : String} (t : String)
    (h : str_contains s sub) : str_contains (s ++ t) sub := by
  obtain ⟨a, b, rfl⟩ := h
  exact ⟨a, b ++ t, by simp [String.append_assoc]⟩

theorem str_contains_append_right {t sub : String} (s : String)
    (h : str_contains t sub) : str_contains (s ++ t) sub := by
  obtain ⟨a, b, rfl⟩ := h
  exact ⟨s ++ a, b, by simp [String.append_assoc]⟩

/-- The parameter dump names the sequence distance. -/
theorem dump_contains_seq_dist (p : Params) :
    str_contains p.dump ("sequence distance " ++ toString p.seq_dist) := by
  simp only [Params.dump, format_pipeline_params]
  apply str_contains_append_left
  apply str_contains_append_left
  apply str_contains_append_left
  apply str_contains_append_left
  apply str_contains_append_left
  apply str_contains_append_left
  apply str_contains_append_left
  apply str_contains_append_left
  exact str_contains_append_right _ (str_contains_self _)

/-- The parameter dump names the UMI distance. -/
theorem dump_contains_umi_dist (p : Params) :
    str_contains p.dump ("UMI distance " ++ toString p.umi_dist) := by
  simp only [Params.dump, format_pipeline_params]
  apply str_contains_append_left
  apply str_contains_append_left
  apply str_contains_append_left
  apply str_contains_append_left
  apply str_contains_append_left
  apply str_contains_append_left
  exact str_contains_append_right _ (str_contains_self _)

/-- The parameter dump carries the UMI position-and-length sentence. -/
theorem dump_contains_umi_pos (p : Params) :
    str_contains p.dump (if p.reverse_umi then
        "UMIs are the first " ++ toString p.umi_len ++ " characters of the reverse read."
      else
        "UMIs are the first " ++ toString p.umi_len ++ " characters of the forward read.") := by
  simp only [Params.dump, format_pipeline_params]
  apply str_contains_append_left
  apply str_contains_append_left
  apply str_contains_append_left
  apply str_contains_append_left
  exact str_contains_append_right _ (str_contains_self _)

/-- The parameter dump carries the read-name verbosity sentence. -/
theorem dump_contains_verbosity (p : Params) :
    str_contains p.dump (if p.verbose_read_names then
        "Read names are written in verbose format."
      else "Read names are written in short format.") := by
  simp only [Params.dump, format_pipeline_params]
  apply str_contains_append_left
  apply str_contains_append_left
  exact str_contains_append_right _ (str_contains_self _)

/-- The parameter dump names the overlap run mode with its insert size and
std deviation whenever both are configured. -/
theorem dump_contains_overlap_mode (p : Params) (is sd : Nat)
    (hi : p.insert_size = some is) (hs : p.std_dev = some sd) :
    str_contains p.dump ("overlap mode with insert size " ++ toString is ++
      " and std deviation " ++ toString sd) := by
  simp only [Params.dump, format_pipeline_params, hi, hs]
  apply str_contains_append_right
  apply str_contains_append_left
  exact str_contains_append_right _ (str_contains_self _)

/-- The parameter dump names the normal run mode when neither insert size nor
std deviation is configured. -/
theorem dump_contains_normal_mode (p : Params)
    (hi : p.insert_size = none) (hs : p.std_dev = none) :
    str_contains p.dump "normal mode without overlaps" := by
  simp only [Params.dump, format_pipeline_params, hi, hs]
  apply str_contains_append_right
  apply str_contains_append_left
  exact str_contains_append_right _ (str_contains_self _)

/-- In a non-overlap arm whose opens and creates all succeed (witnessed by the
same arm succeeding under a healthy pipeline), a failing pipeline run surfaces
as `PipelineError` carrying the formatted parameter dump. -/
theorem non_overlap_arm_pipeline_err {env : FsEnv}
    {fq1 fq2 fq1_out fq2_out : String} {gz_in gz_out : Bool}
    {out_err : String → RbtError} {params : String} {info : RunInfo} {e : String}
    (h : non_overlap_arm { env with pipelineErr := none } fq1 fq2 fq1_out
      fq2_out gz_in gz_out out_err params = .ok info)
    (he : env.pipelineErr = some e) :
    non_overlap_arm env fq1 fq2 fq1_out fq2_out gz_in gz_out out_err params
      = .err (.pipelineError params e) := by
  unfold non_overlap_arm run_pipeline at *
  split_ifs at h
  all_goals simp_all

/-- Overlap-arm analogue of `non_overlap_arm_pipeline_err`. -/
theorem overlap_arm_pipeline_err {env : FsEnv}
    {fq1 fq2 fq1_out fq2_out fq3_out : String} {gz_in gz_out : Bool}
    {insert_size std_dev : Option Nat} {params : String} {info : RunInfo}
    {e : String}
    (h : overlap_arm { env with pipelineErr := none } fq1 fq2 fq1_out fq2_out
      fq3_out gz_in gz_out insert_size std_dev params = .ok info)
    (he : env.pipelineErr = some e) :
    overlap_arm env fq1 fq2 fq1_out fq2_out fq3_out gz_in gz_out insert_size
      std_dev params = .err (.pipelineError params e) := by
  unfold overlap_arm run_pipeline at *
  split_ifs at h
  all_goals try split at h
  all_goals simp_all

/-- C5: whenever a dispatch that would otherwise succeed hits a pipeline
failure, the escaping error is a `PipelineError` whose parameter string is the
full dump, and that dump names the sequence distance, the UMI distance, the
UMI position and length, the read-name verbosity, and the run mode (overlap
with insert size and std deviation, or normal). -/
theorem pipeline_error_carries_params (env : FsEnv)
    (fq1 fq2 fq1_out fq2_out : String) (fq3_out : Option String) (p : Params)
    (e : String) (info : RunInfo)
    (hreach : call_consensus_reads_from_paths { env with pipelineErr := none }
      fq1 fq2 fq1_out fq2_out fq3_out p = .ok info)
    (he : env.pipelineErr = some e) :
    call_consensus_reads_from_paths env fq1 fq2 fq1_out fq2_out fq3_out p
      = .err (.pipelineError p.dump e) ∧
    str_contains p.dump ("sequence distance " ++ toString p.seq_dist) ∧
    str_contains p.dump ("UMI distance " ++ toString p.umi_dist) ∧
    str_contains p.dump (if p.reverse_umi then
        "UMIs are the first " ++ toString p.umi_len ++ " characters of the reverse read."
      else
        "UMIs are the first " ++ toString p.umi_len ++ " characters of the forward read.") ∧
    str_contains p.dump (if p.verbose_read_names then
        "Read names are written in verbose format."
      else "Read names are written in short format.") ∧
    (∀ is sd, p.insert_size = some is → p.std_dev = some sd →
      str_contains p.dump ("overlap mode with insert size " ++ toString is ++
        " and std deviation " ++ toString sd)) ∧
    (p.insert_size = none → p.std_dev = none →
      str_contains p.dump "normal mode without overlaps") := by
  refine ⟨?_, dump_contains_seq_dist p, dump_contains_umi_dist p,
    dump_contains_umi_pos p, dump_contains_verbosity p,
    fun is sd hi hs => dump_contains_overlap_mode p is sd hi hs,
    fun hi hs => dump_contains_normal_mode p hi hs⟩
  cases fq3_out with
  | none =>
    cases h1 : ends_with fq1 ".gz" <;> cases h2 : ends_with fq2 ".gz" <;>
      cases h3 : ends_with fq1_out ".gz" <;> cases h4 : ends_with fq2_out ".gz" <;>
      simp only [call_consensus_reads_from_paths, h1, h2, h3, h4] at hreach ⊢ <;>
      first
        | exact absurd hreach (by simp)
        | exact non_overlap_arm_pipeline_err hreach he
  | some fq3 =>
    cases h1 : ends_with fq1 ".gz" <;> cases h2 : ends_with fq2 ".gz" <;>
      cases h3 : ends_with fq1_out ".gz" <;> cases h4 : ends_with fq2_out ".gz" <;>
      cases h5 : ends_with fq3 ".gz" <;>
      simp only [call_consensus_reads_from_paths, h1, h2, h3, h4, h5] at hreach ⊢ <;>
      first
        | exact absurd hreach (by simp)
        | exact overlap_arm_pipeline_err hreach he

/-- An environment in which all file operations succeed but the pipeline run
fails with an inner error. -/
def env_pipeline_fails : FsEnv :=
  { openOk := fun _ => true, createOk := fun _ => true,
    pipelineErr := some "starcode exited" }

/-- Closed witness for the `PipelineError` theorem at a concrete all-plain
non-overlap configuration. -/
theorem pipeline_error_carries_params_witness :
    call_consensus_reads_from_paths env_pipeline_fails "reads_1.fastq"
      "reads_2.fastq" "out_1.fastq" "out_2.fastq" none default_params
      = .err (.pipelineError default_params.dump "starcode exited") ∧
    str_contains default_params.dump
      ("sequence distance " ++ toString default_params.seq_dist) ∧
    str_contains default_params.dump
      ("UMI distance " ++ toString default_params.umi_dist) ∧
    str_contains default_params.dump (if default_params.reverse_umi then
        "UMIs are the first " ++ toString default_params.umi_len ++ " characters of the reverse read."
      else
        "UMIs are the first " ++ toString default_params.umi_len ++ " characters of the forward read.") ∧
    str_contains default_params.dump (if default_params.verbose_read_names then
        "Read names are written in verbose format."
      else "Read names are written in short format.") ∧
    (∀ is sd, default_params.insert_size = some is →
      default_params.std_dev = some sd →
      str_contains default_params.dump ("overlap mode with insert size " ++
        toString is ++ " and std deviation " ++ toString sd)) ∧
    (default_params.insert_size = none → default_params.std_dev = none →
      str_contains default_params.dump "normal mode without overlaps") :=
  pipeline_error_carries_params env_pipeline_fails "reads_1.fastq"
    "reads_2.fastq" "out_1.fastq" "out_2.fastq" none default_params
    "starcode exited" ⟨false, false, false, false, none, false⟩ rfl rfl
/-!
Part 2 embeds the pagination of `csv_report` and the numeric binning of
`num_plot` / `make_bins` / `make_bins_for_integers` from src/csv/report.rs.
Column values are modelled as exact rationals; the claims settled here
concern the branching structure of the binning predicate and the page
arithmetic, neither of which depends on f32 rounding.
-/

/-- Rust slice `chunks(rpp)`: consecutive chunks of `rpp` rows, the last
possibly shorter.  Rust panics on `rpp = 0`; the model's caller tests for
that panic before chunking, so the 0 case here is arbitrary. -/
def chunks {α : Type} (rpp : Nat) : List α → List (List α)
  | [] => []
  | x :: xs =>
    if _h : rpp = 0 then []
    else (x :: xs).take rpp :: chunks rpp ((x :: xs).drop rpp)
termination_by l => l.length
decreasing_by simp [List.length_drop]; omega

/-- Ceiling division, written as in the page-count claim. -/
def ceil_div (n k : Nat) : Nat := (n + k - 1) / k

theorem ceil_div_cases (len rpp : Nat) (h : 1 ≤ rpp) :
    ceil_div len rpp = if len % rpp = 0 then len / rpp else len / rpp + 1 := by
  have hd := Nat.div_add_mod len rpp
  have hm : len % rpp < rpp := Nat.mod_lt _ (by omega)
  unfold ceil_div
  by_cases h0 : len % rpp = 0
  · simp only [if_pos h0]
    have he : len + rpp - 1 = rpp * (len / rpp) + (rpp - 1) := by omega
    rw [he, Nat.mul_add_div (by omega)]
    have : (rpp - 1) / rpp = 0 := Nat.div_eq_of_lt (by omega)
    omega
  · simp only [if_neg h0]
    have hmul : rpp * (len / rpp + 1) = rpp * (len / rpp) + rpp := by ring
    have he : len + rpp - 1 = rpp * (len / rpp + 1) + (len % rpp - 1) := by omega
    rw [he, Nat.mul_add_div (by omega)]
    have : (len % rpp - 1) / rpp = 0 := Nat.div_eq_of_lt (by omega)
    omega

theorem chunks_length {α : Type} (rpp : Nat) (h : rpp ≠ 0) (l : List α) :
    (chunks rpp l).length = ceil_div l.length rpp := by
  suffices H : ∀ n (l : List α), l.length ≤ n →
      (chunks rpp l).length = ceil_div l.length rpp from H l.length l le_rfl
  intro n
  induction n with
  | zero =>
    intro l hl
    have : l = [] := List.length_eq_zero.mp (by omega)
    subst this
    simp only [chunks, List.length_nil, ceil_div]
    exact (Nat.div_eq_of_lt (by omega)).symm
  | succ n ih =>
    intro l hl
    cases l with
    | nil =>
      simp only [chunks, List.length_nil, ceil_div]
      exact (Nat.div_eq_of_lt (by omega)).symm
    | cons x xs =>
      rw [chunks, dif_neg h]
      have hrec := ih ((x :: xs).drop rpp)
        (by simp only [List.length_drop, List.length_cons]
            simp only [List.length_cons] at hl
            omega)
      rw [List.length_cons, hrec]
      simp only [List.length_drop, List.length_cons]
      unfold ceil_div
      have hR : xs.length + 1 + rpp - 1 = xs.length + rpp := by omega
      rw [hR, Nat.add_div_right _ (by omega : 0 < rpp)]
      rcases Nat.lt_or_ge (xs.length + 1) rpp with hlt | hge
      · have h1 : xs.length + 1 - rpp = 0 := by omega
        rw [h1]
        have h2 : (0 + rpp - 1) / rpp = 0 := Nat.div_eq_of_lt (by omega)
        have h3 : xs.length / rpp = 0 := Nat.div_eq_of_lt (by omega)
        omega
      · have h1 : xs.length + 1 - rpp + rpp - 1 = xs.length := by omega
        rw [h1]

/-- Transliteration of the pagination of `csv_report` (report.rs lines
149-153, 340-413) for a table of already-parsed data rows.  Each returned
pair `(page, total)` stands for the pair of files
`indexes/index{page}.html` and `data/index{page}.js`, both rendered with
`current_page = page` and total page count `total`.  Rust evaluates
`table.len() % rows_per_page` first, which panics when `rows_per_page = 0`;
the remaining rendering (plots, xlsx, lookup tables) does not touch the page
set and is omitted. -/
def csv_report {α : Type} (table : List α) (rows_per_page : Nat) :
    Outcome String (List (Nat × Nat)) :=
  if rows_per_page = 0 then
    .panicked "attempt to calculate the remainder with a divisor of zero"
  else
    let pages :=
      if table.length % rows_per_page = 0 ∧ table.isEmpty = false then
        table.length / rows_per_page - 1
      else table.length / rows_per_page
    if table.isEmpty then .ok [(1, 1)]
    else .ok ((chunks rows_per_page table).enum.map (fun ie => (ie.1 + 1, pages + 1)))

/-- C9: with `rows_per_page = 0` the report generator panics on the
`table.len() % rows_per_page` expression for every table — it does not
return an error result. -/
theorem csv_report_zero_rows_per_page_panics {α : Type} (table : List α) :
    csv_report table 0
      = .panicked "attempt to calculate the remainder with a divisor of zero" := by
  simp [csv_report]

/-- C10: with `rows_per_page ≥ 1`, the generator writes exactly
`⌈n / rows_per_page⌉` page pairs for a table of `n > 0` rows, numbered
`1..`, each rendered with that total; an empty table yields exactly the one
page `(1, 1)`. -/
theorem csv_report_page_set {α : Type} (table : List α) (rows_per_page : Nat)
    (h : 1 ≤ rows_per_page) :
    csv_report table rows_per_page = .ok (
      if table.isEmpty then [(1, 1)]
      else (List.range (ceil_div table.length rows_per_page)).map
        (fun i => (i + 1, ceil_div table.length rows_per_page))) := by
  have hz : rows_per_page ≠ 0 := by omega
  unfold csv_report
  rw [if_neg hz]
  cases htab : table.isEmpty with
  | true => simp
  | false =>
    have hlen : table.length ≠ 0 := by
      cases table with
      | nil => simp at htab
      | cons x xs => simp
    simp only [Bool.false_eq_true, if_false, and_true]
    have hmap : (chunks rows_per_page table).enum.map
        (fun ie => (ie.1 + 1,
          (if table.length % rows_per_page = 0 then
            table.length / rows_per_page - 1
          else table.length / rows_per_page) + 1))
        = (List.range (chunks rows_per_page table).length).map
          (fun i => (i + 1,
            (if table.length % rows_per_page = 0 then
              table.length / rows_per_page - 1
            else table.length / rows_per_page) + 1)) := by
      rw [← List.enum_map_fst (chunks rows_per_page table), List.map_map]
      rfl
    rw [hmap, chunks_length rows_per_page hz]
    have hpages : (if table.length % rows_per_page = 0 then
        table.length / rows_per_page - 1
      else table.length / rows_per_page) + 1
        = ceil_div table.length rows_per_page := by
      rw [ceil_div_cases table.length rows_per_page h]
      by_cases hmod : table.length % rows_per_page = 0
      · have hdiv : 1 ≤ table.length / rows_per_page := by
          rcases Nat.lt_or_ge table.length rows_per_page with hlt | hge
          · exact absurd (Nat.mod_eq_of_lt hlt ▸ hmod) hlen
          · exact Nat.one_le_div_iff (by omega) |>.mpr hge
        simp only [if_pos hmod]
        omega
      · simp [hmod]
    rw [hpages]

/-- Closed witness for the page-set theorem: a three-row table at two rows
per page yields pages (1, 2) and (2, 2). -/
theorem csv_report_page_set_witness :
    csv_report [10, 20, 30] 2 = .ok (
      if ([10, 20, 30] : List Nat).isEmpty then [(1, 1)]
      else (List.range (ceil_div ([10, 20, 30] : List Nat).length 2)).map
        (fun i => (i + 1, ceil_div ([10, 20, 30] : List Nat).length 2))) :=
  csv_report_page_set [10, 20, 30] 2 (by decide)

/-- The bin-membership test shared by `num_plot`, `make_bins` and
`make_bins_for_integers` (report.rs lines 439-441, 555-557, 621-623):
`((i < bins - 1 && val < upper_bound) || (i < bins && val <= upper_bound))
&& val >= lower_bound`. -/
def bin_member (bins i : Nat) (lower_bound upper_bound val : ℚ) : Bool :=
  ((decide (i < bins - 1) && decide (val < upper_bound))
    || (decide (i < bins) && decide (val ≤ upper_bound)))
  && decide (val ≥ lower_bound)

/-- Fold `values.iter().fold(f32::INFINITY, min)` for a nonempty column: the
minimum of the parsed values (the infinite seed matters only for empty
columns, which the binning claims do not concern). -/
def column_min : List ℚ → ℚ
  | [] => 0
  | v :: vs => vs.foldl min v

/-- Fold `values.iter().fold(f32::NEG_INFINITY, max)` for a nonempty
column. -/
def column_max : List ℚ → ℚ
  | [] => 0
  | v :: vs => vs.foldl max v

/-- Number of bins into which the `num_plot` loop (report.rs lines 432-445)
counts one value of a column, with `min`, `max` and
`step = (max - min) / 20` computed as in the source. -/
def num_plot_value_bin_count (values : List ℚ) (val : ℚ) : Nat :=
  let mn := column_min values
  let mx := column_max values
  let step := (mx - mn) / 20
  (List.range 20).countP (fun i =>
    bin_member 20 i (mn + i * step) (mn + i * step + step) val)

/-- Sum of all 20 bin counts of `num_plot` over a whole column. -/
def num_plot_total_count (values : List ℚ) : Nat :=
  (values.map (num_plot_value_bin_count values)).sum

/-- C8: the membership test admits a value equal to a bin's upper bound in
every bin, so a value on an interior bin boundary is counted into both
adjacent bins, and the total of the bin counts can exceed the number of
values — as on the concrete column [0, 1, 20], whose three values produce
four bin counts. -/
theorem bin_boundary_double_count (i : Nat) (mn step : ℚ)
    (hi : i + 1 < 20) (hs : 0 ≤ step) :
    bin_member 20 i (mn + i * step) (mn + i * step + step)
      (mn + (i + 1 : Nat) * step) = true ∧
    bin_member 20 (i + 1) (mn + (i + 1 : Nat) * step)
      (mn + (i + 1 : Nat) * step + step) (mn + (i + 1 : Nat) * step) = true ∧
    num_plot_total_count [0, 1, 20] = 4 ∧
    List.length [(0 : ℚ), 1, 20] = 3 := by
  refine ⟨?_, ?_, ?_, by simp⟩
  case refine_3 =>
    norm_num [num_plot_total_count, num_plot_value_bin_count, column_min,
      column_max, bin_member, List.range_succ, List.countP_cons,
      List.countP_nil]
  · simp only [bin_member, Bool.and_eq_true, Bool.or_eq_true, decide_eq_true_eq]
    refine ⟨Or.inr ⟨by omega, ?_⟩, ?_⟩
    · push_cast
      nlinarith
    · push_cast
      nlinarith
  · simp only [bin_member, Bool.and_eq_true, Bool.or_eq_true, decide_eq_true_eq]
    refine ⟨Or.inr ⟨by omega, ?_⟩, ?_⟩
    · push_cast
      nlinarith
    · push_cast
      nlinarith

/-- Closed witness for the double-count theorem at bin 0 of a column with
minimum 0 and step 1: the value 1 lies in bins 0 and 1. -/
theorem bin_boundary_double_count_witness :
    bin_member 20 0 ((0 : ℚ) + (0 : Nat) * 1) ((0 : ℚ) + (0 : Nat) * 1 + 1)
      ((0 : ℚ) + (0 + 1 : Nat) * 1) = true ∧
    bin_member 20 (0 + 1) ((0 : ℚ) + (0 + 1 : Nat) * 1)
      ((0 : ℚ) + (0 + 1 : Nat) * 1 + 1) ((0 : ℚ) + (0 + 1 : Nat) * 1) = true ∧
    num_plot_total_count [0, 1, 20] = 4 ∧
    List.length [(0 : ℚ), 1, 20] = 3 :=
  bin_boundary_double_count 0 0 1 (by decide) (by simp)

/-!
Part 3 models, from the specification, the parts of the pipeline whose code
is not in this source snapshot: the startup configuration validation of the
CLI layer, the two-stage clustering contract, and the per-column consensus
caller.
-/

/-- The run mode selected at startup. -/
inductive Mode where
  | nonOverlap
  | overlap (insert_size std_dev : Nat)
deriving DecidableEq

/-- Modelled from the spec: the startup (CLI-level) validation of the
(insert_size, std_dev) pair, which is not part of this source snapshot —
mod.rs line 121 records that the invalid combination "cannot occur due to
the clap configuration", and spec §6 requires: present together → overlap
mode, both absent → non-overlap, any other combination rejected at startup
(§7 lists it under `ConfigError`). -/
def validate_mode (insert_size std_dev : Option Nat) : Outcome RbtError Mode :=
  match insert_size, std_dev with
  | some is, some sd => .ok (.overlap is sd)
  | none, none => .ok .nonOverlap
  | _, _ => .err (.configError "only one of insert_size and std_dev provided")

/-- C4: a configuration providing exactly one of insert_size and std_dev is
rejected at startup with a `ConfigError` — it neither runs nor panics. -/
theorem lone_insert_size_rejected (insert_size std_dev : Option Nat)
    (h : insert_size.isSome ≠ std_dev.isSome) :
    validate_mode insert_size std_dev
      = .err (.configError "only one of insert_size and std_dev provided") := by
  cases insert_size <;> cases std_dev <;> simp_all [validate_mode]

/-- Closed witness for the startup-validation theorem: insert_size given,
std_dev absent. -/
theorem lone_insert_size_rejected_witness :
    validate_mode (some 300) none
      = .err (.configError "only one of insert_size and std_dev provided") :=
  lone_insert_size_rejected (some 300) none (by decide)

/-- A list of clusters partitions a set of indices (given as a list) when
every index of the whole lies in exactly one cluster and every cluster
member lies in the whole. -/
def is_partition_of (parts : List (List Nat)) (whole : List Nat) : Prop :=
  (∀ i ∈ whole, parts.countP (fun c => decide (i ∈ c)) = 1) ∧
  (∀ c ∈ parts, ∀ j ∈ c, j ∈ whole)

instance (parts : List (List Nat)) (whole : List Nat) :
    Decidable (is_partition_of parts whole) := by
  unfold is_partition_of
  infer_instance

/-- Modelled from the spec (§4.2; pipeline.rs is not part of this snapshot):
the output consensus groups of the two-stage clustering are the sequence
sub-clusters of each UMI cluster, in order. -/
def two_stage_groups (umi_clusters : List (List Nat))
    (seq_clusters : List Nat → List (List Nat)) : List (List Nat) :=
  umi_clusters.flatMap seq_clusters

/-- C2: if the UMI clusters partition the input indices and, inside every
UMI cluster, the sequence sub-clusters partition that cluster, then every
input index lies in exactly one output consensus group. -/
theorem two_stage_groups_partition (umi_clusters : List (List Nat))
    (seq_clusters : List Nat → List (List Nat)) (input : List Nat)
    (hU : is_partition_of umi_clusters input)
    (hS : ∀ U ∈ umi_clusters, is_partition_of (seq_clusters U) U) :
    ∀ i ∈ input,
      (two_stage_groups umi_clusters seq_clusters).countP
        (fun g => decide (i ∈ g)) = 1 := by
  intro i hi
  have key : ∀ U ∈ umi_clusters,
      (seq_clusters U).countP (fun g => decide (i ∈ g))
        = if i ∈ U then 1 else 0 := by
    intro U hUU
    by_cases hmem : i ∈ U
    · rw [if_pos hmem]
      exact (hS U hUU).1 i hmem
    · rw [if_neg hmem]
      apply List.countP_eq_zero.mpr
      intro g hg
      simp only [decide_eq_true_eq]
      intro hig
      exact hmem ((hS U hUU).2 g hg i hig)
  have main : ∀ L : List (List Nat),
      (∀ U ∈ L, (seq_clusters U).countP (fun g => decide (i ∈ g))
        = if i ∈ U then 1 else 0) →
      (L.flatMap seq_clusters).countP (fun g => decide (i ∈ g))
        = L.countP (fun U => decide (i ∈ U)) := by
    intro L
    induction L with
    | nil => simp
    | cons U rest ihr =>
      intro hL
      rw [List.flatMap_cons, List.countP_append, List.countP_cons,
        hL U (List.mem_cons_self U rest),
        ihr (fun V hV => hL V (List.mem_cons_of_mem U hV))]
      by_cases hmem : i ∈ U <;> (first | (simp [hmem]; omega) | simp [hmem])
  unfold two_stage_groups
  rw [main umi_clusters key]
  exact hU.1 i hi

/-- Closed witness for the partition theorem: UMI clusters [[1, 2], [3]],
sub-clusters [[1], [2]] and [[3]]; index 2 lies in exactly one group. -/
theorem two_stage_groups_partition_witness :
    (two_stage_groups [[1, 2], [3]]
      (fun U => if U = [1, 2] then [[1], [2]] else [[3]])).countP
      (fun g => decide ((2 : Nat) ∈ g)) = 1 :=
  two_stage_groups_partition [[1, 2], [3]]
    (fun U => if U = [1, 2] then [[1], [2]] else [[3]]) [1, 2, 3]
    (by decide) (by decide) 2 (by decide)

/-- The four called alleles, in the fixed tie-break order A < C < G < T. -/
inductive Allele where
  | A
  | C
  | G
  | T
deriving DecidableEq

/-- Position of an allele in the tie-break order. -/
def Allele.idx : Allele → Nat
  | .A => 0
  | .C => 1
  | .G => 2
  | .T => 3

/-- The allele list in tie-break order. -/
def alleles : List Allele := [.A, .C, .G, .T]

/-- One aligned column observation: the read base (an allele, or the
ambiguous N) together with its error probability e = 10^(-q/10). -/
inductive ObsBase where
  | base (a : Allele)
  | N
deriving DecidableEq

structure Obs where
  b : ObsBase
  e : ℝ

/-- Modelled from the spec (§4.5; calc_consensus.rs is not part of this
source snapshot): the log-likelihood contribution of one observation to
allele `a` — log(1 - e) on a match, log(e / 3) on a mismatch, and the flat
log(1/4) for an ambiguous N. -/
noncomputable def obs_log_lik (a : Allele) (o : Obs) : ℝ :=
  match o.b with
  | .N => Real.log (1 / 4)
  | .base b => if b = a then Real.log (1 - o.e) else Real.log (o.e / 3)

/-- Column log-likelihood of an allele. -/
noncomputable def log_lik (col : List Obs) (a : Allele) : ℝ :=
  (col.map (obs_log_lik a)).sum

/-- The posterior of an allele under the uniform prior: the normalized
exponential of the log-likelihood. -/
noncomputable def posterior (col : List Obs) (a : Allele) : ℝ :=
  Real.exp (log_lik col a) /
    (alleles.map (fun x => Real.exp (log_lik col x))).sum

open Classical in
/-- Modelled from the spec (§4.5): the first allele of the order
A < C < G < T attaining the maximal log-likelihood — a strict improvement is
required to displace the current best, so exact ties keep the earlier
allele. -/
noncomputable def argmax_allele (col : List Obs) : Allele :=
  [Allele.C, Allele.G, Allele.T].foldl
    (fun best x => if log_lik col best < log_lik col x then x else best)
    Allele.A

/-- Test of spec §4.5's all-N rule: every observation of the column is the
ambiguous base N. -/
def all_N (col : List Obs) : Bool :=
  col.all (fun o => decide (o.b = ObsBase.N))

/-- Modelled from the spec (§4.5): the emitted consensus base — N when all
observations of the column are N, and otherwise the posterior-maximizing
allele with exact ties broken by the order A < C < G < T. -/
noncomputable def consensus_base (col : List Obs) : ObsBase :=
  if all_N col then ObsBase.N
  else ObsBase.base (argmax_allele col)

/-- Modelled from the spec (§4.5): the emitted consensus quality — 0 when
all observations of the column are N, and otherwise
round(-10 * log10(1 - p)) for the posterior p of the called allele, clamped
into [2, 40]. -/
noncomputable def consensus_qual (col : List Obs) : ℤ :=
  if all_N col then 0
  else max 2 (min 40
    (round (-10 * Real.logb 10 (1 - posterior col (argmax_allele col)))))

theorem sum_exp_pos (col : List Obs) :
    0 < (alleles.map (fun x => Real.exp (log_lik col x))).sum := by
  simp only [alleles, List.map_cons, List.map_nil, List.sum_cons,
    List.sum_nil, add_zero]
  positivity

/-- Posterior comparisons coincide with log-likelihood comparisons: the
normalizing denominator is positive and exp is monotone. -/
theorem posterior_le_posterior_iff (col : List Obs) (a b : Allele) :
    posterior col a ≤ posterior col b ↔ log_lik col a ≤ log_lik col b := by
  unfold posterior
  rw [div_le_div_iff_of_pos_right (sum_exp_pos col)]
  exact Real.exp_le_exp

/-- The argmax allele attains the maximal log-likelihood, and is the
earliest allele of the order to do so. -/
theorem argmax_allele_spec (col : List Obs) :
    (∀ a : Allele, log_lik col a ≤ log_lik col (argmax_allele col)) ∧
    (∀ a : Allele, log_lik col (argmax_allele col) ≤ log_lik col a →
      (argmax_allele col).idx ≤ a.idx) := by
  unfold argmax_allele
  simp only [List.foldl_cons, List.foldl_nil]
  by_cases h1 : log_lik col Allele.A < log_lik col Allele.C
  · rw [if_pos h1]
    by_cases h2 : log_lik col Allele.C < log_lik col Allele.G
    · rw [if_pos h2]
      by_cases h3 : log_lik col Allele.G < log_lik col Allele.T
      · rw [if_pos h3]
        exact ⟨fun a => by cases a <;> linarith,
          fun a ha => by
            cases a <;> simp only [Allele.idx] <;> first | omega | linarith⟩
      · rw [if_neg h3]
        exact ⟨fun a => by cases a <;> linarith,
          fun a ha => by
            cases a <;> simp only [Allele.idx] <;> first | omega | linarith⟩
    · rw [if_neg h2]
      by_cases h3 : log_lik col Allele.C < log_lik col Allele.T
      · rw [if_pos h3]
        exact ⟨fun a => by cases a <;> linarith,
          fun a ha => by
            cases a <;> simp only [Allele.idx] <;> first | omega | linarith⟩
      · rw [if_neg h3]
        exact ⟨fun a => by cases a <;> linarith,
          fun a ha => by
            cases a <;> simp only [Allele.idx] <;> first | omega | linarith⟩
  · rw [if_neg h1]
    by_cases h2 : log_lik col Allele.A < log_lik col Allele.G
    · rw [if_pos h2]
      by_cases h3 : log_lik col Allele.G < log_lik col Allele.T
      · rw [if_pos h3]
        exact ⟨fun a => by cases a <;> linarith,
          fun a ha => by
            cases a <;> simp only [Allele.idx] <;> first | omega | linarith⟩
      · rw [if_neg h3]
        exact ⟨fun a => by cases a <;> linarith,
          fun a ha => by
            cases a <;> simp only [Allele.idx] <;> first | omega | linarith⟩
    · rw [if_neg h2]
      by_cases h3 : log_lik col Allele.A < log_lik col Allele.T
      · rw [if_pos h3]
        exact ⟨fun a => by cases a <;> linarith,
          fun a ha => by
            cases a <;> simp only [Allele.idx] <;> first | omega | linarith⟩
      · rw [if_neg h3]
        exact ⟨fun a => by cases a <;> linarith,
          fun a ha => by cases a <;> simp only [Allele.idx] <;> omega⟩

/-- C3 (counterexample): at a column whose single observation is the
ambiguous base N, the caller emits base N — which is no allele — with
quality 0, which lies outside [2, 40]; so the claim that every column yields
a posterior-maximizing allele with quality clamped into [2, 40] fails. -/
theorem consensus_all_N_counterexample :
    consensus_base [⟨ObsBase.N, 1⟩] = ObsBase.N ∧
    consensus_qual [⟨ObsBase.N, 1⟩] = 0 ∧
    ¬ (2 ≤ (0 : ℤ)) := by
  refine ⟨?_, ?_, by decide⟩ <;>
    simp [consensus_base, consensus_qual, all_N]

/-- C3 (amended): for every column with at least one non-N observation, the
emitted base is the allele maximizing the posterior under the four-allele
likelihood with uniform prior, exact ties are broken by the fixed order
A < C < G < T (any allele whose posterior matches the called one sits no
earlier in the order), and the emitted quality is
round(-10 log10(1 - p(called))) clamped into [2, 40]; a column whose
observations are all N yields base N with quality 0. -/
theorem consensus_call_map (col : List Obs) :
    (all_N col = false →
      consensus_base col = ObsBase.base (argmax_allele col) ∧
      (∀ a : Allele, posterior col a ≤ posterior col (argmax_allele col)) ∧
      (∀ a : Allele, posterior col (argmax_allele col) ≤ posterior col a →
        (argmax_allele col).idx ≤ a.idx) ∧
      consensus_qual col = max 2 (min 40
        (round (-10 * Real.logb 10 (1 - posterior col (argmax_allele col))))) ∧
      2 ≤ consensus_qual col ∧ consensus_qual col ≤ 40) ∧
    (all_N col = true →
      consensus_base col = ObsBase.N ∧ consensus_qual col = 0) := by
  obtain ⟨hmax, htie⟩ := argmax_allele_spec col
  constructor
  · intro hnN
    refine ⟨by simp [consensus_base, hnN],
      fun a => (posterior_le_posterior_iff col a _).mpr (hmax a),
      fun a ha => htie a ((posterior_le_posterior_iff col _ a).mp ha),
      by simp [consensus_qual, hnN], ?_, ?_⟩
    · simp only [consensus_qual, hnN, Bool.false_eq_true, if_false]
      exact le_max_left _ _
    · simp only [consensus_qual, hnN, Bool.false_eq_true, if_false]
      exact max_le (by norm_num) (min_le_left _ _)
  · intro hN
    exact ⟨by simp [consensus_base, hN], by simp [consensus_qual, hN]⟩

/-- Closed witness for the amended consensus theorem at a one-observation
column reading allele A: the non-N branch applies with its hypothesis
discharged by evaluation. -/
theorem consensus_call_map_witness :
    consensus_base [⟨ObsBase.base Allele.A, 1 / 10⟩]
      = ObsBase.base (argmax_allele [⟨ObsBase.base Allele.A, 1 / 10⟩]) ∧
    (∀ a : Allele, posterior [⟨ObsBase.base Allele.A, 1 / 10⟩] a
      ≤ posterior [⟨ObsBase.base Allele.A, 1 / 10⟩]
        (argmax_allele [⟨ObsBase.base Allele.A, 1 / 10⟩])) ∧
    (∀ a : Allele, posterior [⟨ObsBase.base Allele.A, 1 / 10⟩]
        (argmax_allele [⟨ObsBase.base Allele.A, 1 / 10⟩])
      ≤ posterior [⟨ObsBase.base Allele.A, 1 / 10⟩] a →
      (argmax_allele [⟨ObsBase.base Allele.A, 1 / 10⟩]).idx ≤ a.idx) ∧
    consensus_qual [⟨ObsBase.base Allele.A, 1 / 10⟩] = max 2 (min 40
      (round (-10 * Real.logb 10 (1 - posterior [⟨ObsBase.base Allele.A, 1 / 10⟩]
        (argmax_allele [⟨ObsBase.base Allele.A, 1 / 10⟩]))))) ∧
    2 ≤ consensus_qual [⟨ObsBase.base Allele.A, 1 / 10⟩] ∧
    consensus_qual [⟨ObsBase.base Allele.A, 1 / 10⟩] ≤ 40 :=
  (consensus_call_map [⟨ObsBase.base Allele.A, 1 / 10⟩]).1 rfl

end RBT
